import Mathlib

/-!
Verification of the string/bytes typed-wrapper layer of a host↔foreign-runtime
bridge (the `PyString`/`PyBytes` module).

The host-side code is embedded shallowly:

* Bytes are `Nat` values (< 256 where it matters); byte buffers are `List Nat`.
* Rust's `str::from_utf8` and `String::from_utf8_lossy` are embedded as
  executable Lean functions (`utf8Dec`, `utf8Lossy`) following the exact
  validation automaton of Rust's `core::str::validations` (lead-byte width
  table, constrained second bytes, maximal-subpart error lengths).
* Foreign-runtime primitives (object creation, the canonical UTF-8 accessor,
  the byte-buffer accessors, the type-check predicate, the encoded-object
  conversion) are out-of-repository collaborators; each is modelled from the
  spec's boundary description and marked as such in its doc comment.
* Allocation exhaustion is modelled by a runtime flag `Runtime.allocOk`;
  `from_owned_ptr_or_panic` turns a failed allocation into the non-recoverable
  `FatalOr.fatal` outcome (a panic, not an error value).
-/

deriving instance DecidableEq for Except

/-! ## UTF-8 byte classification (Rust `core::str::validations`) -/

/-- A UTF-8 continuation byte: `0x80 ..= 0xBF`. -/
def isCont (b : Nat) : Bool := 0x80 ≤ b && b ≤ 0xBF

/-- Classification of a lead byte by the width of the sequence it starts,
following Rust's `utf8_char_width` table: width 1 for `0x00..=0x7F`,
width 0 (always invalid) for `0x80..=0xC1` and `0xF5..=0xFF`,
width 2 for `0xC2..=0xDF`, width 3 for `0xE0..=0xEF`,
width 4 for `0xF0..=0xF4`. -/
inductive ByteClass where
  | ascii
  | bad
  | lead2
  | lead3
  | lead4
deriving DecidableEq

def classify (b : Nat) : ByteClass :=
  if b < 0x80 then .ascii
  else if b < 0xC2 then .bad
  else if b < 0xE0 then .lead2
  else if b < 0xF0 then .lead3
  else if b < 0xF5 then .lead4
  else .bad

/-- Valid second byte of a three-byte sequence, per lead byte
(Rust: `(0xE0, 0xA0..=0xBF) | (0xE1..=0xEC, 0x80..=0xBF) |
(0xED, 0x80..=0x9F) | (0xEE..=0xEF, 0x80..=0xBF)`). -/
def valid3Second (b0 b1 : Nat) : Bool :=
  (b0 == 0xE0 && 0xA0 ≤ b1 && b1 ≤ 0xBF) ||
  (0xE1 ≤ b0 && b0 ≤ 0xEC && isCont b1) ||
  (b0 == 0xED && 0x80 ≤ b1 && b1 ≤ 0x9F) ||
  (0xEE ≤ b0 && b0 ≤ 0xEF && isCont b1)

/-- Valid second byte of a four-byte sequence, per lead byte
(Rust: `(0xF0, 0x90..=0xBF) | (0xF1..=0xF3, 0x80..=0xBF) |
(0xF4, 0x80..=0x8F)`). -/
def valid4Second (b0 b1 : Nat) : Bool :=
  (b0 == 0xF0 && 0x90 ≤ b1 && b1 ≤ 0xBF) ||
  (0xF1 ≤ b0 && b0 ≤ 0xF3 && isCont b1) ||
  (b0 == 0xF4 && 0x80 ≤ b1 && b1 ≤ 0x8F)

/-! ## Strict UTF-8 decoding (Rust `str::from_utf8`)

`utf8Dec l` returns the decoded code points, or `(valid_up_to, error_len)`
mirroring Rust's `Utf8Error`: `valid_up_to` is the byte offset at which the
first invalid sequence starts, `error_len` is `some n` when the invalid
sequence is `n` bytes long (resynchronize after skipping them) and `none`
when the input ends with an incomplete sequence. -/

/-- Prepend a decoded code point of byte width `w`; on error shift the
reported offset by `w`. -/
def utf8Cons (cp w : Nat) :
    Except (Nat × Option Nat) (List Nat) → Except (Nat × Option Nat) (List Nat)
  | .error (p, e) => .error (w + p, e)
  | .ok cps => .ok (cp :: cps)

/-- Strict UTF-8 decoder over byte lists, the embedding of Rust's
`str::from_utf8` validation automaton (width table, constrained second
bytes, maximal-subpart error lengths). Returns decoded code points. -/
def utf8Dec : (l : List Nat) → Except (Nat × Option Nat) (List Nat)
  | [] => .ok []
  | b0 :: rest =>
    match classify b0, rest with
    | .ascii, r => utf8Cons b0 1 (utf8Dec r)
    | .bad, _ => .error (0, some 1)
    | .lead2, [] => .error (0, none)
    | .lead2, b1 :: rest1 =>
      if isCont b1 then
        utf8Cons ((b0 - 0xC0) * 0x40 + (b1 - 0x80)) 2 (utf8Dec rest1)
      else .error (0, some 1)
    | .lead3, [] => .error (0, none)
    | .lead3, [b1] =>
      if valid3Second b0 b1 then .error (0, none) else .error (0, some 1)
    | .lead3, b1 :: b2 :: rest2 =>
      if valid3Second b0 b1 then
        if isCont b2 then
          utf8Cons ((b0 - 0xE0) * 0x1000 + (b1 - 0x80) * 0x40 + (b2 - 0x80)) 3
            (utf8Dec rest2)
        else .error (0, some 2)
      else .error (0, some 1)
    | .lead4, [] => .error (0, none)
    | .lead4, [b1] =>
      if valid4Second b0 b1 then .error (0, none) else .error (0, some 1)
    | .lead4, [b1, b2] =>
      if valid4Second b0 b1 then
        if isCont b2 then .error (0, none) else .error (0, some 2)
      else .error (0, some 1)
    | .lead4, b1 :: b2 :: b3 :: rest3 =>
      if valid4Second b0 b1 then
        if isCont b2 then
          if isCont b3 then
            utf8Cons
              ((b0 - 0xF0) * 0x40000 + (b1 - 0x80) * 0x1000 +
                (b2 - 0x80) * 0x40 + (b3 - 0x80)) 4
              (utf8Dec rest3)
          else .error (0, some 3)
        else .error (0, some 2)
      else .error (0, some 1)
termination_by l => l.length
decreasing_by all_goals (simp only [List.length_cons, List.length_nil]; omega)

/-- Lossy UTF-8 decoding, the embedding of Rust's
`String::from_utf8_lossy`: each maximal invalid subpart (of the length
`utf8Dec` reports as `error_len`, or the trailing incomplete sequence)
becomes one `U+FFFD` replacement code point; valid sequences decode as in
`utf8Dec`. -/
def utf8Lossy : (l : List Nat) → List Nat
  | [] => []
  | b0 :: rest =>
    match classify b0, rest with
    | .ascii, r => b0 :: utf8Lossy r
    | .bad, r => 0xFFFD :: utf8Lossy r
    | .lead2, [] => [0xFFFD]
    | .lead2, b1 :: rest1 =>
      if isCont b1 then ((b0 - 0xC0) * 0x40 + (b1 - 0x80)) :: utf8Lossy rest1
      else 0xFFFD :: utf8Lossy (b1 :: rest1)
    | .lead3, [] => [0xFFFD]
    | .lead3, [b1] =>
      if valid3Second b0 b1 then [0xFFFD] else 0xFFFD :: utf8Lossy [b1]
    | .lead3, b1 :: b2 :: rest2 =>
      if valid3Second b0 b1 then
        if isCont b2 then
          ((b0 - 0xE0) * 0x1000 + (b1 - 0x80) * 0x40 + (b2 - 0x80)) ::
            utf8Lossy rest2
        else 0xFFFD :: utf8Lossy (b2 :: rest2)
      else 0xFFFD :: utf8Lossy (b1 :: b2 :: rest2)
    | .lead4, [] => [0xFFFD]
    | .lead4, [b1] =>
      if valid4Second b0 b1 then [0xFFFD] else 0xFFFD :: utf8Lossy [b1]
    | .lead4, [b1, b2] =>
      if valid4Second b0 b1 then
        if isCont b2 then [0xFFFD] else 0xFFFD :: utf8Lossy [b2]
      else 0xFFFD :: utf8Lossy [b1, b2]
    | .lead4, b1 :: b2 :: b3 :: rest3 =>
      if valid4Second b0 b1 then
        if isCont b2 then
          if isCont b3 then
            ((b0 - 0xF0) * 0x40000 + (b1 - 0x80) * 0x1000 +
              (b2 - 0x80) * 0x40 + (b3 - 0x80)) :: utf8Lossy rest3
          else 0xFFFD :: utf8Lossy (b3 :: rest3)
        else 0xFFFD :: utf8Lossy (b2 :: b3 :: rest3)
      else 0xFFFD :: utf8Lossy (b1 :: b2 :: b3 :: rest3)
termination_by l => l.length
decreasing_by all_goals (simp only [List.length_cons, List.length_nil]; omega)

/-! ## UTF-8 encoding of host strings -/

/-- UTF-8 encoding of one code point (the bytes Rust's `str` stores for one
`char`). -/
def encodeChar (c : Nat) : List Nat :=
  if c < 0x80 then [c]
  else if c < 0x800 then [0xC0 + c / 0x40, 0x80 + c % 0x40]
  else if c < 0x10000 then
    [0xE0 + c / 0x1000, 0x80 + c / 0x40 % 0x40, 0x80 + c % 0x40]
  else
    [0xF0 + c / 0x40000, 0x80 + c / 0x1000 % 0x40, 0x80 + c / 0x40 % 0x40,
      0x80 + c % 0x40]

/-- A scalar value a host `char` may hold (no surrogates, below `0x110000`). -/
def validCp (c : Nat) : Prop := c < 0xD800 ∨ (0xE000 ≤ c ∧ c < 0x110000)

instance (c : Nat) : Decidable (validCp c) := by unfold validCp; infer_instance

/-- The UTF-8 bytes of a host string (`str::as_bytes` / `s.as_ptr(), s.len()`). -/
def strToUtf8 (s : String) : List Nat :=
  (s.data.map Char.toNat).flatMap encodeChar

/-- Rebuild a host string from decoded code points. -/
def strFromCps (cps : List Nat) : String := String.mk (cps.map Char.ofNat)

/-- The two fields of Rust's `std::str::Utf8Error`. -/
structure Utf8Error where
  valid_up_to : Nat
  error_len : Option Nat
deriving DecidableEq

/-- Rust `std::str::from_utf8` on a byte buffer, producing the borrowed
string or the `Utf8Error` describing the first invalid sequence. -/
def from_utf8 (l : List Nat) : Except Utf8Error String :=
  match utf8Dec l with
  | .ok cps => .ok (strFromCps cps)
  | .error (p, e) => .error ⟨p, e⟩

/-- Rust `String::from_utf8_lossy` on a byte buffer. -/
def from_utf8_lossy (l : List Nat) : String := strFromCps (utf8Lossy l)

/-! ## Specification-side notion of UTF-8 validity

These definitions follow the spec's words ("byte content fails validation
under the expected text encoding; carries the first invalid byte offset"),
independent of the decoder's bookkeeping: validity is a Boolean acceptor and
the first-invalid-byte offset is the length of the longest valid prefix. -/

/-- Whether a byte list is entirely well-formed UTF-8 (acceptor). -/
def utf8ValidB : (l : List Nat) → Bool
  | [] => true
  | b0 :: rest =>
    match classify b0, rest with
    | .ascii, r => utf8ValidB r
    | .bad, _ => false
    | .lead2, b1 :: rest1 => isCont b1 && utf8ValidB rest1
    | .lead2, [] => false
    | .lead3, b1 :: b2 :: rest2 =>
      valid3Second b0 b1 && isCont b2 && utf8ValidB rest2
    | .lead3, _ => false
    | .lead4, b1 :: b2 :: b3 :: rest3 =>
      valid4Second b0 b1 && isCont b2 && isCont b3 && utf8ValidB rest3
    | .lead4, _ => false
termination_by l => l.length
decreasing_by all_goals (simp only [List.length_cons, List.length_nil]; omega)

/-- The offset of the first invalid byte of `l`, read off the spec's words:
the length of the longest prefix of `l` that is well-formed UTF-8. -/
def validUpToSpec (l : List Nat) : Nat :=
  Nat.findGreatest (fun k => utf8ValidB (l.take k) = true) l.length

/-! ## The foreign-object model -/

/-- The native type tag of a foreign object. -/
inductive PyTag where
  | unicode
  | bytes
  | other
deriving DecidableEq

/-- A foreign heap object: its native type tag and its byte content (for a
text object, the canonical UTF-8-equivalent representation; for a byte
buffer, the raw bytes). -/
structure PyObj where
  tag : PyTag
  data : List Nat
deriving DecidableEq

/-- The Access Token: proof that the global lock is held (zero payload). -/
structure Python where
deriving DecidableEq

/-- The oracle for the foreign runtime's behaviour that the embedded code
calls into: whether allocation currently succeeds, the encoding-conversion
primitive, and the pending-exception payload fetched on failure. -/
structure Runtime where
  allocOk : Bool
  fromEncoded : PyObj → List Nat → List Nat → Option PyObj
  pendingExc : Nat

/-- Outcome of an operation whose only failure is fatal: `fatal` is an
unconditional abort (a panic), not a recoverable error value. -/
inductive FatalOr (α : Type) where
  | fatal
  | ok (a : α)
deriving DecidableEq

/-- `Py::from_owned_ptr_or_panic`: a null pointer (failed allocation)
aborts; otherwise the owned pointer is wrapped. Repository code outside the
sample file; modelled from the spec's fatal-allocation contract. -/
def from_owned_ptr_or_panic {α : Type} : Option α → FatalOr α
  | none => .fatal
  | some a => .ok a

/-- Host-side error values: a decode failure carrying the first invalid
byte offset (and invalid-range length), or a captured foreign exception. -/
inductive PyErr where
  | unicodeDecodeError (validUpTo : Nat) (errorLen : Option Nat)
  | foreign (payload : Nat)
deriving DecidableEq

/-- `exceptions::UnicodeDecodeError::new_utf8`: builds the foreign-shaped
decode exception from the byte buffer and the `Utf8Error`. Repository code
outside the sample file; modelled from the spec: the `DecodeError`
identifies the first invalid byte position and the offending range. -/
def UnicodeDecodeError_new_utf8 (_bytes : List Nat) (e : Utf8Error) : PyErr :=
  .unicodeDecodeError e.valid_up_to e.error_len

/-- `PyErr::fetch`: capture the pending foreign exception. Repository code
outside the sample file; modelled from the spec's exception-capture
primitive. -/
def PyErr_fetch (rt : Runtime) : PyErr := .foreign rt.pendingExc

/-! ### Foreign runtime primitives (spec §6 boundary) -/

/-- Modelled from the spec: the create-from-bytes primitive for text
objects (`ffi::PyUnicode_FromStringAndSize`) copies `len` bytes
(length-delimited) into a fresh text object; `none` on allocation
exhaustion. -/
def PyUnicode_FromStringAndSize (rt : Runtime) (bytes : List Nat) : Option PyObj :=
  if rt.allocOk then some ⟨.unicode, bytes⟩ else none

/-- Modelled from the spec: the create-from-bytes primitive for byte
buffers (`ffi::PyBytes_FromStringAndSize`), length-delimited; `none` on
allocation exhaustion. -/
def PyBytes_FromStringAndSize (rt : Runtime) (bytes : List Nat) : Option PyObj :=
  if rt.allocOk then some ⟨.bytes, bytes⟩ else none

/-- Modelled from the spec: the canonical text accessor
(`ffi::PyUnicode_AsUTF8AndSize`) returns the (pointer, length) pair of the
UTF-8-equivalent representation and does not modify the object; the
returned object is the state of the object after the call. -/
def PyUnicode_AsUTF8AndSize (o : PyObj) : (List Nat × Nat) × PyObj :=
  ((o.data, o.data.length), o)

/-- Modelled from the spec: byte-buffer accessor `ffi::PyBytes_AsString`. -/
def PyBytes_AsString (o : PyObj) : (List Nat × PyObj) := (o.data, o)

/-- Modelled from the spec: byte-buffer accessor `ffi::PyBytes_Size`. -/
def PyBytes_Size (o : PyObj) : Nat := o.data.length

/-- Modelled from the spec: the foreign type-check primitive
(`ffi::PyUnicode_Check`). -/
def PyUnicode_Check (o : PyObj) : Bool := o.tag == .unicode

/-- Modelled from the spec: the foreign type-check primitive
(`ffi::PyBytes_Check`). -/
def PyBytes_Check (o : PyObj) : Bool := o.tag == .bytes

/-- What a callee expecting a NUL-terminated C string reads when handed a
pointer to `buf` with `junk` being whatever host memory follows it: bytes
up to the first zero. -/
def cStrRead (buf junk : List Nat) : List Nat :=
  (buf ++ junk).takeWhile (fun b => b ≠ 0)

/-! ## The typed wrappers (`src/types/string.rs`) -/

/-- `PyString` — represents a Python `string` (`repr(transparent)` over the
object pointer). -/
structure PyString where
  obj : PyObj
deriving DecidableEq

/-- `PyBytes` — represents a Python `byte` string. -/
structure PyBytes where
  obj : PyObj
deriving DecidableEq

/-- `PyString::new`: `PyUnicode_FromStringAndSize(s.as_ptr(), s.len())`
wrapped by `Py::from_owned_ptr_or_panic` — panics (fatally) if out of
memory. -/
def PyString.new (rt : Runtime) (_py : Python) (s : String) : FatalOr PyString :=
  from_owned_ptr_or_panic ((PyUnicode_FromStringAndSize rt (strToUtf8 s)).map PyString.mk)

/-- `PyBytes::new`: `PyBytes_FromStringAndSize(s.as_ptr(), s.len())`
wrapped by `Py::from_owned_ptr_or_panic`. -/
def PyBytes.new (rt : Runtime) (_py : Python) (s : List Nat) : FatalOr PyBytes :=
  from_owned_ptr_or_panic ((PyBytes_FromStringAndSize rt s).map PyBytes.mk)

/-- `PyString::as_bytes` as the call actually executes: invoke the
canonical accessor, then view `size` bytes at `data`
(`slice::from_raw_parts(data, size)`); returns the slice together with the
object as the accessor left it. -/
def PyString.as_bytes_st (self : PyString) : List Nat × PyString :=
  ((PyUnicode_AsUTF8AndSize self.obj).1.1.take (PyUnicode_AsUTF8AndSize self.obj).1.2,
    ⟨(PyUnicode_AsUTF8AndSize self.obj).2⟩)

/-- `PyString::as_bytes`, the returned slice. -/
def PyString.as_bytes (self : PyString) : List Nat := self.as_bytes_st.1

/-- `PyBytes::as_bytes`: `slice::from_raw_parts(PyBytes_AsString(ptr),
PyBytes_Size(ptr))`, with the object as the accessors left it. -/
def PyBytes.as_bytes_st (self : PyBytes) : List Nat × PyBytes :=
  (((PyBytes_AsString self.obj).1.take (PyBytes_Size self.obj)),
    ⟨(PyBytes_AsString self.obj).2⟩)

/-- `PyBytes::as_bytes`, the returned slice. -/
def PyBytes.as_bytes (self : PyBytes) : List Nat := self.as_bytes_st.1

/-- `PyString::to_string`: `str::from_utf8(self.as_bytes())`, turning a
`Utf8Error` into a `UnicodeDecodeError`-shaped `PyErr`. -/
def PyString.to_string (self : PyString) : Except PyErr String :=
  match from_utf8 self.as_bytes with
  | .ok s => .ok s
  | .error e => .error (UnicodeDecodeError_new_utf8 self.as_bytes e)

/-- `PyString::to_string_lossy`: `String::from_utf8_lossy(self.as_bytes())`. -/
def PyString.to_string_lossy (self : PyString) : String :=
  from_utf8_lossy self.as_bytes

/-- `PyTryFrom::try_from` for `PyString`, generated by
`pyobject_native_type!(PyString, ffi::PyUnicode_Type, ffi::PyUnicode_Check)`.
Repository code outside the sample file; modelled from the spec: run the
foreign type check, on success reinterpret the same pointer at zero cost,
on failure return the type-mismatch error. -/
def PyString.try_from (o : PyObj) : Except Unit PyString :=
  if PyUnicode_Check o then .ok ⟨o⟩ else .error ()

/-- `PyTryFrom::try_from` for `PyBytes`, generated by
`pyobject_native_type!(PyBytes, ffi::PyBytes_Type, ffi::PyBytes_Check)`.
Repository code outside the sample file; modelled from the spec, as for
`PyString.try_from`. -/
def PyBytes.try_from (o : PyObj) : Except Unit PyBytes :=
  if PyBytes_Check o then .ok ⟨o⟩ else .error ()

/-- `PyString::from_object(src, encoding, errors)`: calls
`ffi::PyUnicode_FromEncodedObject(src.as_ptr(), encoding.as_ptr(),
errors.as_ptr())` and maps a null result to `Err(PyErr::fetch)` via
`from_owned_ptr_or_err`. The two `&str` arguments are passed as raw
pointers without NUL-termination, so the C-string the runtime reads extends
into whatever host memory follows the buffer (`encJunk`, `errJunk`). -/
def PyString.from_object (rt : Runtime) (src : PyObj) (encoding errors : String)
    (encJunk errJunk : List Nat) : Except PyErr PyString :=
  match rt.fromEncoded src (cStrRead (strToUtf8 encoding) encJunk)
      (cStrRead (strToUtf8 errors) errJunk) with
  | some o => .ok ⟨o⟩
  | none => .error (PyErr_fetch rt)

/-! ## Step lemmas: one decoded unit at the head of the buffer -/

theorem utf8Dec_cons_ascii {b0 : Nat} (h : classify b0 = .ascii) (m : List Nat) :
    utf8Dec (b0 :: m) = utf8Cons b0 1 (utf8Dec m) := by
  simp only [utf8Dec, h]

theorem utf8Dec_cons2 {b0 b1 : Nat} (h : classify b0 = .lead2)
    (h1 : isCont b1 = true) (m : List Nat) :
    utf8Dec (b0 :: b1 :: m) =
      utf8Cons ((b0 - 0xC0) * 0x40 + (b1 - 0x80)) 2 (utf8Dec m) := by
  rw [utf8Dec.eq_def]
  simp only [h, h1, if_true]

theorem utf8Dec_cons3 {b0 b1 b2 : Nat} (h : classify b0 = .lead3)
    (h1 : valid3Second b0 b1 = true) (h2 : isCont b2 = true) (m : List Nat) :
    utf8Dec (b0 :: b1 :: b2 :: m) =
      utf8Cons ((b0 - 0xE0) * 0x1000 + (b1 - 0x80) * 0x40 + (b2 - 0x80)) 3
        (utf8Dec m) := by
  rw [utf8Dec.eq_def]
  simp only [h, h1, h2, if_true]

theorem utf8Dec_cons4 {b0 b1 b2 b3 : Nat} (h : classify b0 = .lead4)
    (h1 : valid4Second b0 b1 = true) (h2 : isCont b2 = true)
    (h3 : isCont b3 = true) (m : List Nat) :
    utf8Dec (b0 :: b1 :: b2 :: b3 :: m) =
      utf8Cons
        ((b0 - 0xF0) * 0x40000 + (b1 - 0x80) * 0x1000 + (b2 - 0x80) * 0x40 +
          (b3 - 0x80)) 4 (utf8Dec m) := by
  rw [utf8Dec.eq_def]
  simp only [h, h1, h2, h3, if_true]

theorem utf8Lossy_cons_ascii {b0 : Nat} (h : classify b0 = .ascii) (m : List Nat) :
    utf8Lossy (b0 :: m) = b0 :: utf8Lossy m := by
  rw [utf8Lossy.eq_def]
  simp only [h]

theorem utf8Lossy_cons2 {b0 b1 : Nat} (h : classify b0 = .lead2)
    (h1 : isCont b1 = true) (m : List Nat) :
    utf8Lossy (b0 :: b1 :: m) =
      ((b0 - 0xC0) * 0x40 + (b1 - 0x80)) :: utf8Lossy m := by
  rw [utf8Lossy.eq_def]
  simp only [h, h1, if_true]

theorem utf8Lossy_cons3 {b0 b1 b2 : Nat} (h : classify b0 = .lead3)
    (h1 : valid3Second b0 b1 = true) (h2 : isCont b2 = true) (m : List Nat) :
    utf8Lossy (b0 :: b1 :: b2 :: m) =
      ((b0 - 0xE0) * 0x1000 + (b1 - 0x80) * 0x40 + (b2 - 0x80)) :: utf8Lossy m := by
  rw [utf8Lossy.eq_def]
  simp only [h, h1, h2, if_true]

theorem utf8Lossy_cons4 {b0 b1 b2 b3 : Nat} (h : classify b0 = .lead4)
    (h1 : valid4Second b0 b1 = true) (h2 : isCont b2 = true)
    (h3 : isCont b3 = true) (m : List Nat) :
    utf8Lossy (b0 :: b1 :: b2 :: b3 :: m) =
      ((b0 - 0xF0) * 0x40000 + (b1 - 0x80) * 0x1000 + (b2 - 0x80) * 0x40 +
        (b3 - 0x80)) :: utf8Lossy m := by
  rw [utf8Lossy.eq_def]
  simp only [h, h1, h2, h3, if_true]

theorem utf8ValidB_cons_ascii {b0 : Nat} (h : classify b0 = .ascii) (m : List Nat) :
    utf8ValidB (b0 :: m) = utf8ValidB m := by
  rw [utf8ValidB.eq_def]
  simp only [h]

theorem utf8ValidB_cons2 {b0 b1 : Nat} (h : classify b0 = .lead2)
    (h1 : isCont b1 = true) (m : List Nat) :
    utf8ValidB (b0 :: b1 :: m) = utf8ValidB m := by
  rw [utf8ValidB.eq_def]
  simp only [h, h1, Bool.true_and]

theorem utf8ValidB_cons3 {b0 b1 b2 : Nat} (h : classify b0 = .lead3)
    (h1 : valid3Second b0 b1 = true) (h2 : isCont b2 = true) (m : List Nat) :
    utf8ValidB (b0 :: b1 :: b2 :: m) = utf8ValidB m := by
  rw [utf8ValidB.eq_def]
  simp only [h, h1, h2, Bool.true_and]

theorem utf8ValidB_cons4 {b0 b1 b2 b3 : Nat} (h : classify b0 = .lead4)
    (h1 : valid4Second b0 b1 = true) (h2 : isCont b2 = true)
    (h3 : isCont b3 = true) (m : List Nat) :
    utf8ValidB (b0 :: b1 :: b2 :: b3 :: m) = utf8ValidB m := by
  rw [utf8ValidB.eq_def]
  simp only [h, h1, h2, h3, Bool.true_and]

/-! ## Encoding round-trip: decoding the bytes of a valid code point -/

theorem utf8Dec_encodeChar {c : Nat} (hv : validCp c) (m : List Nat) :
    utf8Dec (encodeChar c ++ m) =
      utf8Cons c (encodeChar c).length (utf8Dec m) := by
  rcases Nat.lt_or_ge c 0x80 with h1 | h1
  · have e : encodeChar c = [c] := by unfold encodeChar; rw [if_pos h1]
    rw [e]
    exact utf8Dec_cons_ascii (by unfold classify; rw [if_pos h1]) m
  rcases Nat.lt_or_ge c 0x800 with h2 | h2
  · have e : encodeChar c = [0xC0 + c / 0x40, 0x80 + c % 0x40] := by
      unfold encodeChar; rw [if_neg (by omega), if_pos h2]
    rw [e]
    have hcl : classify (0xC0 + c / 0x40) = .lead2 := by
      unfold classify; rw [if_neg (by omega), if_neg (by omega), if_pos (by omega)]
    have hct : isCont (0x80 + c % 0x40) = true := by
      simp only [isCont, Bool.and_eq_true, decide_eq_true_eq]; omega
    rw [List.cons_append, List.cons_append, List.nil_append,
      utf8Dec_cons2 hcl hct m]
    have hval : (0xC0 + c / 0x40 - 0xC0) * 0x40 + (0x80 + c % 0x40 - 0x80) = c := by
      omega
    rw [hval]
    rfl
  rcases Nat.lt_or_ge c 0x10000 with h3 | h3
  · have e : encodeChar c =
        [0xE0 + c / 0x1000, 0x80 + c / 0x40 % 0x40, 0x80 + c % 0x40] := by
      unfold encodeChar; rw [if_neg (by omega), if_neg (by omega), if_pos h3]
    rw [e]
    have hcl : classify (0xE0 + c / 0x1000) = .lead3 := by
      unfold classify
      rw [if_neg (by omega), if_neg (by omega), if_neg (by omega), if_pos (by omega)]
    have hsur : c < 0xD800 ∨ 0xE000 ≤ c := by
      rcases hv with h | h
      · exact .inl h
      · exact .inr h.1
    have h1v : valid3Second (0xE0 + c / 0x1000) (0x80 + c / 0x40 % 0x40) = true := by
      simp only [valid3Second, isCont, Bool.or_eq_true, Bool.and_eq_true,
        beq_iff_eq, decide_eq_true_eq]
      omega
    have hct : isCont (0x80 + c % 0x40) = true := by
      simp only [isCont, Bool.and_eq_true, decide_eq_true_eq]; omega
    rw [List.cons_append, List.cons_append, List.cons_append, List.nil_append,
      utf8Dec_cons3 hcl h1v hct m]
    have hval : (0xE0 + c / 0x1000 - 0xE0) * 0x1000 +
        (0x80 + c / 0x40 % 0x40 - 0x80) * 0x40 + (0x80 + c % 0x40 - 0x80) = c := by
      omega
    rw [hval]
    rfl
  · have h4 : c < 0x110000 := by
      rcases hv with h | h
      · omega
      · exact h.2
    have e : encodeChar c =
        [0xF0 + c / 0x40000, 0x80 + c / 0x1000 % 0x40, 0x80 + c / 0x40 % 0x40,
          0x80 + c % 0x40] := by
      unfold encodeChar
      rw [if_neg (by omega), if_neg (by omega), if_neg (by omega)]
    rw [e]
    have hcl : classify (0xF0 + c / 0x40000) = .lead4 := by
      unfold classify
      rw [if_neg (by omega), if_neg (by omega), if_neg (by omega),
        if_neg (by omega), if_pos (by omega)]
    have h1v : valid4Second (0xF0 + c / 0x40000) (0x80 + c / 0x1000 % 0x40) = true := by
      simp only [valid4Second, isCont, Bool.or_eq_true, Bool.and_eq_true,
        beq_iff_eq, decide_eq_true_eq]
      omega
    have hc2 : isCont (0x80 + c / 0x40 % 0x40) = true := by
      simp only [isCont, Bool.and_eq_true, decide_eq_true_eq]; omega
    have hc3 : isCont (0x80 + c % 0x40) = true := by
      simp only [isCont, Bool.and_eq_true, decide_eq_true_eq]; omega
    rw [List.cons_append, List.cons_append, List.cons_append, List.cons_append,
      List.nil_append, utf8Dec_cons4 hcl h1v hc2 hc3 m]
    have hval : (0xF0 + c / 0x40000 - 0xF0) * 0x40000 +
        (0x80 + c / 0x1000 % 0x40 - 0x80) * 0x1000 +
        (0x80 + c / 0x40 % 0x40 - 0x80) * 0x40 + (0x80 + c % 0x40 - 0x80) = c := by
      omega
    rw [hval]
    rfl

/-- Decoding the concatenated encodings of valid code points recovers them. -/
theorem utf8Dec_flatMap_encodeChar (cs : List Nat) (hv : ∀ c ∈ cs, validCp c) :
    utf8Dec (cs.flatMap encodeChar) = .ok cs := by
  induction cs with
  | nil => simp [utf8Dec.eq_def]
  | cons c rest ih =>
    rw [List.flatMap_cons, utf8Dec_encodeChar (hv c (by simp)) _,
      ih (fun x hx => hv x (List.mem_cons_of_mem _ hx))]
    rfl

/-- Every host `Char` holds a valid code point. -/
theorem validCp_char (c : Char) : validCp c.toNat := by
  have h := c.valid
  simp only [UInt32.isValidChar, Nat.isValidChar] at h
  unfold validCp
  unfold Char.toNat
  omega

/-- Decoding the UTF-8 bytes of a host string recovers the string. -/
theorem utf8Dec_strToUtf8 (s : String) :
    utf8Dec (strToUtf8 s) = .ok (s.data.map Char.toNat) := by
  exact utf8Dec_flatMap_encodeChar _ (by
    intro c hc
    rcases List.mem_map.mp hc with ⟨ch, _, rfl⟩
    exact validCp_char ch)

/-- Rebuilding a string from the code points of its characters is the
identity. -/
theorem strFromCps_map_toNat (s : String) :
    strFromCps (s.data.map Char.toNat) = s := by
  unfold strFromCps
  rw [List.map_map]
  have : (Char.ofNat ∘ Char.toNat) = id := by
    funext c
    exact Char.ofNat_toNat c
  rw [this, List.map_id]

/-! ## Characterization of lossy decoding against strict decoding

`LossySpec l` states the three-way agreement between `utf8Lossy` and
`utf8Dec` on `l`: on success they decode identically; at an error of known
length `n` at offset `p`, the lossy result is the strict decoding of the
valid first `p` bytes, one replacement marker, and the lossy decoding of
the bytes after the invalid subpart; at a trailing incomplete sequence it
is the strict decoding of the valid part plus one final marker. -/
def LossySpec (l : List Nat) : Prop :=
  (∀ cps, utf8Dec l = .ok cps → utf8Lossy l = cps) ∧
  (∀ p n, utf8Dec l = .error (p, some n) →
    ∃ cps, utf8Dec (l.take p) = .ok cps ∧
      utf8Lossy l = cps ++ 0xFFFD :: utf8Lossy (l.drop (p + n))) ∧
  (∀ p, utf8Dec l = .error (p, none) →
    ∃ cps, utf8Dec (l.take p) = .ok cps ∧ utf8Lossy l = cps ++ [0xFFFD])

theorem lossySpec_err {l : List Nat} {q : Nat}
    (hdec : utf8Dec l = .error (0, some q))
    (hlossy : utf8Lossy l = 0xFFFD :: utf8Lossy (l.drop q)) : LossySpec l := by
  refine ⟨?_, ?_, ?_⟩
  · intro cps h
    rw [hdec] at h
    exact absurd h (by simp)
  · intro p n h
    rw [hdec] at h
    injection h with h'
    injection h' with hp he
    injection he with hn
    subst hp hn
    exact ⟨[], by rw [List.take_zero, utf8Dec.eq_def], by simpa using hlossy⟩
  · intro p h
    rw [hdec] at h
    injection h with h'
    injection h' with hp he
    exact absurd he (by simp)

theorem lossySpec_none {l : List Nat}
    (hdec : utf8Dec l = .error (0, none))
    (hlossy : utf8Lossy l = [0xFFFD]) : LossySpec l := by
  refine ⟨?_, ?_, ?_⟩
  · intro cps h
    rw [hdec] at h
    exact absurd h (by simp)
  · intro p n h
    rw [hdec] at h
    injection h with h'
    injection h' with hp he
    exact absurd he (by simp)
  · intro p h
    rw [hdec] at h
    injection h with h'
    injection h' with hp he
    subst hp
    exact ⟨[], by rw [List.take_zero, utf8Dec.eq_def], by simpa using hlossy⟩

theorem lossySpec_unit (u r : List Nat) (cp : Nat)
    (hu : ∀ m, utf8Dec (u ++ m) = utf8Cons cp u.length (utf8Dec m))
    (hlossy : utf8Lossy (u ++ r) = cp :: utf8Lossy r)
    (ih : LossySpec r) : LossySpec (u ++ r) := by
  obtain ⟨ih1, ih2, ih3⟩ := ih
  refine ⟨?_, ?_, ?_⟩
  · intro cps h
    rw [hu r] at h
    cases hr : utf8Dec r with
    | ok cps' =>
      rw [hr] at h
      simp only [utf8Cons] at h
      injection h with h'
      rw [hlossy, ih1 cps' hr, h']
    | error pe =>
      obtain ⟨p', e'⟩ := pe
      rw [hr] at h
      simp only [utf8Cons] at h
      exact absurd h (by simp)
  · intro p n h
    rw [hu r] at h
    cases hr : utf8Dec r with
    | ok cps' =>
      rw [hr] at h
      simp only [utf8Cons] at h
      exact absurd h (by simp)
    | error pe =>
      obtain ⟨p', e'⟩ := pe
      rw [hr] at h
      simp only [utf8Cons] at h
      injection h with h'
      injection h' with hp he
      subst he
      obtain ⟨cps', htake, hl⟩ := ih2 p' n hr
      refine ⟨cp :: cps', ?_, ?_⟩
      · rw [← hp, List.take_append, hu, htake]
        rfl
      · rw [hlossy, hl, ← hp, Nat.add_assoc, List.drop_append]
        rfl
  · intro p h
    rw [hu r] at h
    cases hr : utf8Dec r with
    | ok cps' =>
      rw [hr] at h
      simp only [utf8Cons] at h
      exact absurd h (by simp)
    | error pe =>
      obtain ⟨p', e'⟩ := pe
      rw [hr] at h
      simp only [utf8Cons] at h
      injection h with h'
      injection h' with hp he
      subst he
      obtain ⟨cps', htake, hl⟩ := ih3 p' hr
      refine ⟨cp :: cps', ?_, ?_⟩
      · rw [← hp, List.take_append, hu, htake]
        rfl
      · rw [hlossy, hl]
        rfl

theorem utf8Dec_nil : utf8Dec [] = .ok [] := by rw [utf8Dec.eq_def]

theorem utf8Lossy_nil : utf8Lossy [] = [] := by rw [utf8Lossy.eq_def]

theorem utf8ValidB_nil : utf8ValidB [] = true := by rw [utf8ValidB.eq_def]

/-- The three-way strict/lossy agreement holds for every byte list. -/
theorem lossySpec_all (l : List Nat) : LossySpec l := by
  induction l using utf8Dec.induct with
  | case1 =>
    refine ⟨?_, ?_, ?_⟩
    · intro cps h
      rw [utf8Dec_nil] at h
      injection h with h'
      rw [← h', utf8Lossy_nil]
    · intro p n h
      rw [utf8Dec_nil] at h
      exact absurd h (by simp)
    · intro p h
      rw [utf8Dec_nil] at h
      exact absurd h (by simp)
  | case2 b0 r h ih =>
    exact lossySpec_unit [b0] r b0 (fun m => utf8Dec_cons_ascii h m)
      (utf8Lossy_cons_ascii h r) ih
  | case3 b0 rest h =>
    have hdec : utf8Dec (b0 :: rest) = .error (0, some 1) := by
      rw [utf8Dec.eq_def]; simp [h]
    have hlossy : utf8Lossy (b0 :: rest) = 0xFFFD :: utf8Lossy rest := by
      rw [utf8Lossy.eq_def]; simp [h]
    exact lossySpec_err hdec hlossy
  | case4 b0 h =>
    have hdec : utf8Dec [b0] = .error (0, none) := by
      rw [utf8Dec.eq_def]; simp [h]
    have hlossy : utf8Lossy [b0] = [0xFFFD] := by
      rw [utf8Lossy.eq_def]; simp [h]
    exact lossySpec_none hdec hlossy
  | case5 b0 b1 rest1 h h1 ih =>
    exact lossySpec_unit [b0, b1] rest1 _ (fun m => utf8Dec_cons2 h h1 m)
      (utf8Lossy_cons2 h h1 rest1) ih
  | case6 b0 b1 rest1 h h1 =>
    have hdec : utf8Dec (b0 :: b1 :: rest1) = .error (0, some 1) := by
      rw [utf8Dec.eq_def]; simp [h, h1]
    have hlossy : utf8Lossy (b0 :: b1 :: rest1) = 0xFFFD :: utf8Lossy (b1 :: rest1) := by
      rw [utf8Lossy.eq_def]; simp [h, h1]
    exact lossySpec_err hdec hlossy
  | case7 b0 h =>
    have hdec : utf8Dec [b0] = .error (0, none) := by
      rw [utf8Dec.eq_def]; simp [h]
    have hlossy : utf8Lossy [b0] = [0xFFFD] := by
      rw [utf8Lossy.eq_def]; simp [h]
    exact lossySpec_none hdec hlossy
  | case8 b0 b1 h h1 =>
    have hdec : utf8Dec [b0, b1] = .error (0, none) := by
      rw [utf8Dec.eq_def]; simp [h, h1]
    have hlossy : utf8Lossy [b0, b1] = [0xFFFD] := by
      rw [utf8Lossy.eq_def]; simp [h, h1]
    exact lossySpec_none hdec hlossy
  | case9 b0 b1 h h1 =>
    have hdec : utf8Dec [b0, b1] = .error (0, some 1) := by
      rw [utf8Dec.eq_def]; simp [h, h1]
    have hlossy : utf8Lossy [b0, b1] = 0xFFFD :: utf8Lossy [b1] := by
      rw [utf8Lossy.eq_def]; simp [h, h1]
    exact lossySpec_err hdec hlossy
  | case10 b0 b1 b2 rest2 h h1 h2 ih =>
    exact lossySpec_unit [b0, b1, b2] rest2 _ (fun m => utf8Dec_cons3 h h1 h2 m)
      (utf8Lossy_cons3 h h1 h2 rest2) ih
  | case11 b0 b1 b2 rest2 h h1 h2 =>
    have hdec : utf8Dec (b0 :: b1 :: b2 :: rest2) = .error (0, some 2) := by
      rw [utf8Dec.eq_def]; simp [h, h1, h2]
    have hlossy : utf8Lossy (b0 :: b1 :: b2 :: rest2) =
        0xFFFD :: utf8Lossy (b2 :: rest2) := by
      rw [utf8Lossy.eq_def]; simp [h, h1, h2]
    exact lossySpec_err hdec hlossy
  | case12 b0 b1 b2 rest2 h h1 =>
    have hdec : utf8Dec (b0 :: b1 :: b2 :: rest2) = .error (0, some 1) := by
      rw [utf8Dec.eq_def]; simp [h, h1]
    have hlossy : utf8Lossy (b0 :: b1 :: b2 :: rest2) =
        0xFFFD :: utf8Lossy (b1 :: b2 :: rest2) := by
      rw [utf8Lossy.eq_def]; simp [h, h1]
    exact lossySpec_err hdec hlossy
  | case13 b0 h =>
    have hdec : utf8Dec [b0] = .error (0, none) := by
      rw [utf8Dec.eq_def]; simp [h]
    have hlossy : utf8Lossy [b0] = [0xFFFD] := by
      rw [utf8Lossy.eq_def]; simp [h]
    exact lossySpec_none hdec hlossy
  | case14 b0 b1 h h1 =>
    have hdec : utf8Dec [b0, b1] = .error (0, none) := by
      rw [utf8Dec.eq_def]; simp [h, h1]
    have hlossy : utf8Lossy [b0, b1] = [0xFFFD] := by
      rw [utf8Lossy.eq_def]; simp [h, h1]
    exact lossySpec_none hdec hlossy
  | case15 b0 b1 h h1 =>
    have hdec : utf8Dec [b0, b1] = .error (0, some 1) := by
      rw [utf8Dec.eq_def]; simp [h, h1]
    have hlossy : utf8Lossy [b0, b1] = 0xFFFD :: utf8Lossy [b1] := by
      rw [utf8Lossy.eq_def]; simp [h, h1]
    exact lossySpec_err hdec hlossy
  | case16 b0 b1 b2 h h1 h2 =>
    have hdec : utf8Dec [b0, b1, b2] = .error (0, none) := by
      rw [utf8Dec.eq_def]; simp [h, h1, h2]
    have hlossy : utf8Lossy [b0, b1, b2] = [0xFFFD] := by
      rw [utf8Lossy.eq_def]; simp [h, h1, h2]
    exact lossySpec_none hdec hlossy
  | case17 b0 b1 b2 h h1 h2 =>
    have hdec : utf8Dec [b0, b1, b2] = .error (0, some 2) := by
      rw [utf8Dec.eq_def]; simp [h, h1, h2]
    have hlossy : utf8Lossy [b0, b1, b2] = 0xFFFD :: utf8Lossy [b2] := by
      rw [utf8Lossy.eq_def]; simp [h, h1, h2]
    exact lossySpec_err hdec hlossy
  | case18 b0 b1 b2 h h1 =>
    have hdec : utf8Dec [b0, b1, b2] = .error (0, some 1) := by
      rw [utf8Dec.eq_def]; simp [h, h1]
    have hlossy : utf8Lossy [b0, b1, b2] = 0xFFFD :: utf8Lossy [b1, b2] := by
      rw [utf8Lossy.eq_def]; simp [h, h1]
    exact lossySpec_err hdec hlossy
  | case19 b0 b1 b2 b3 rest3 h h1 h2 h3 ih =>
    exact lossySpec_unit [b0, b1, b2, b3] rest3 _
      (fun m => utf8Dec_cons4 h h1 h2 h3 m) (utf8Lossy_cons4 h h1 h2 h3 rest3) ih
  | case20 b0 b1 b2 b3 rest3 h h1 h2 h3 =>
    have hdec : utf8Dec (b0 :: b1 :: b2 :: b3 :: rest3) = .error (0, some 3) := by
      rw [utf8Dec.eq_def]; simp [h, h1, h2, h3]
    have hlossy : utf8Lossy (b0 :: b1 :: b2 :: b3 :: rest3) =
        0xFFFD :: utf8Lossy (b3 :: rest3) := by
      rw [utf8Lossy.eq_def]; simp [h, h1, h2, h3]
    exact lossySpec_err hdec hlossy
  | case21 b0 b1 b2 b3 rest3 h h1 h2 =>
    have hdec : utf8Dec (b0 :: b1 :: b2 :: b3 :: rest3) = .error (0, some 2) := by
      rw [utf8Dec.eq_def]; simp [h, h1, h2]
    have hlossy : utf8Lossy (b0 :: b1 :: b2 :: b3 :: rest3) =
        0xFFFD :: utf8Lossy (b2 :: b3 :: rest3) := by
      rw [utf8Lossy.eq_def]; simp [h, h1, h2]
    exact lossySpec_err hdec hlossy
  | case22 b0 b1 b2 b3 rest3 h h1 =>
    have hdec : utf8Dec (b0 :: b1 :: b2 :: b3 :: rest3) = .error (0, some 1) := by
      rw [utf8Dec.eq_def]; simp [h, h1]
    have hlossy : utf8Lossy (b0 :: b1 :: b2 :: b3 :: rest3) =
        0xFFFD :: utf8Lossy (b1 :: b2 :: b3 :: rest3) := by
      rw [utf8Lossy.eq_def]; simp [h, h1]
    exact lossySpec_err hdec hlossy

/-! ## Validity acceptor vs. decoder, and maximality of the error offset -/

theorem utf8Cons_isOk (cp w : Nat) (x : Except (Nat × Option Nat) (List Nat)) :
    (utf8Cons cp w x).isOk = x.isOk := by
  cases x with
  | ok cps => rfl
  | error pe =>
    obtain ⟨p, e⟩ := pe
    rfl

/-- The spec-side acceptor agrees with success of the strict decoder. -/
theorem utf8ValidB_eq_isOk (l : List Nat) : utf8ValidB l = (utf8Dec l).isOk := by
  induction l using utf8Dec.induct
  case case1 => rw [utf8ValidB_nil, utf8Dec_nil]; rfl
  case case2 b0 r h ih =>
    rw [utf8ValidB_cons_ascii h, utf8Dec_cons_ascii h, utf8Cons_isOk, ih]
  case case5 b0 b1 rest1 h h1 ih =>
    rw [utf8ValidB_cons2 h h1, utf8Dec_cons2 h h1, utf8Cons_isOk, ih]
  case case10 b0 b1 b2 rest2 h h1 h2 ih =>
    rw [utf8ValidB_cons3 h h1 h2, utf8Dec_cons3 h h1 h2, utf8Cons_isOk, ih]
  case case19 b0 b1 b2 b3 rest3 h h1 h2 h3 ih =>
    rw [utf8ValidB_cons4 h h1 h2 h3, utf8Dec_cons4 h h1 h2 h3, utf8Cons_isOk, ih]
  all_goals rw [utf8ValidB.eq_def, utf8Dec.eq_def]
  all_goals simp_all [Except.isOk, Except.toBool]

/-- The error offset reported by the decoder lies strictly inside the
buffer. -/
theorem utf8Dec_err_lt_length (l : List Nat) :
    ∀ p e, utf8Dec l = .error (p, e) → p < l.length := by
  induction l using utf8Dec.induct
  case case1 =>
    intro p e hh
    rw [utf8Dec_nil] at hh
    exact absurd hh (by simp)
  case case2 b0 r h ih =>
    intro p e hh
    rw [utf8Dec_cons_ascii h] at hh
    cases hr : utf8Dec r with
    | ok cps =>
      rw [hr] at hh
      exact absurd hh (by simp [utf8Cons])
    | error pe =>
      obtain ⟨p', e'⟩ := pe
      rw [hr] at hh
      simp only [utf8Cons] at hh
      injection hh with h'
      injection h' with hp he
      have := ih p' e' hr
      simp only [List.length_cons]
      omega
  case case5 b0 b1 rest1 h h1 ih =>
    intro p e hh
    rw [utf8Dec_cons2 h h1] at hh
    cases hr : utf8Dec rest1 with
    | ok cps =>
      rw [hr] at hh
      exact absurd hh (by simp [utf8Cons])
    | error pe =>
      obtain ⟨p', e'⟩ := pe
      rw [hr] at hh
      simp only [utf8Cons] at hh
      injection hh with h'
      injection h' with hp he
      have := ih p' e' hr
      simp only [List.length_cons]
      omega
  case case10 b0 b1 b2 rest2 h h1 h2 ih =>
    intro p e hh
    rw [utf8Dec_cons3 h h1 h2] at hh
    cases hr : utf8Dec rest2 with
    | ok cps =>
      rw [hr] at hh
      exact absurd hh (by simp [utf8Cons])
    | error pe =>
      obtain ⟨p', e'⟩ := pe
      rw [hr] at hh
      simp only [utf8Cons] at hh
      injection hh with h'
      injection h' with hp he
      have := ih p' e' hr
      simp only [List.length_cons]
      omega
  case case19 b0 b1 b2 b3 rest3 h h1 h2 h3 ih =>
    intro p e hh
    rw [utf8Dec_cons4 h h1 h2 h3] at hh
    cases hr : utf8Dec rest3 with
    | ok cps =>
      rw [hr] at hh
      exact absurd hh (by simp [utf8Cons])
    | error pe =>
      obtain ⟨p', e'⟩ := pe
      rw [hr] at hh
      simp only [utf8Cons] at hh
      injection hh with h'
      injection h' with hp he
      have := ih p' e' hr
      simp only [List.length_cons]
      omega
  all_goals intro p e hh
  all_goals rw [utf8Dec.eq_def] at hh
  all_goals simp_all
  all_goals omega

theorem vb_bad {b0 : Nat} (h : classify b0 = .bad) (m : List Nat) :
    utf8ValidB (b0 :: m) = false := by
  rw [utf8ValidB.eq_def]; simp [h]

theorem vb_one2 {b0 : Nat} (h : classify b0 = .lead2) :
    utf8ValidB [b0] = false := by
  rw [utf8ValidB.eq_def]; simp [h]

theorem vb_one3 {b0 : Nat} (h : classify b0 = .lead3) :
    utf8ValidB [b0] = false := by
  rw [utf8ValidB.eq_def]; simp [h]

theorem vb_one4 {b0 : Nat} (h : classify b0 = .lead4) :
    utf8ValidB [b0] = false := by
  rw [utf8ValidB.eq_def]; simp [h]

theorem vb_two3 {b0 : Nat} (h : classify b0 = .lead3) (b1 : Nat) :
    utf8ValidB [b0, b1] = false := by
  rw [utf8ValidB.eq_def]; simp [h]

theorem vb_two4 {b0 : Nat} (h : classify b0 = .lead4) (b1 : Nat) :
    utf8ValidB [b0, b1] = false := by
  rw [utf8ValidB.eq_def]; simp [h]

theorem vb_three4 {b0 : Nat} (h : classify b0 = .lead4) (b1 b2 : Nat) :
    utf8ValidB [b0, b1, b2] = false := by
  rw [utf8ValidB.eq_def]; simp [h]

theorem vb_cons2_nc {b0 b1 : Nat} (h : classify b0 = .lead2)
    (h1 : isCont b1 = false) (m : List Nat) :
    utf8ValidB (b0 :: b1 :: m) = false := by
  rw [utf8ValidB.eq_def]; simp [h, h1]

theorem vb_cons3_nv {b0 b1 : Nat} (h : classify b0 = .lead3)
    (h1 : valid3Second b0 b1 = false) (b2 : Nat) (m : List Nat) :
    utf8ValidB (b0 :: b1 :: b2 :: m) = false := by
  rw [utf8ValidB.eq_def]; simp [h, h1]

theorem vb_cons3_nc {b0 b1 b2 : Nat} (h : classify b0 = .lead3)
    (h1 : valid3Second b0 b1 = true) (h2 : isCont b2 = false) (m : List Nat) :
    utf8ValidB (b0 :: b1 :: b2 :: m) = false := by
  rw [utf8ValidB.eq_def]; simp [h, h1, h2]

theorem vb_cons4_nv {b0 b1 : Nat} (h : classify b0 = .lead4)
    (h1 : valid4Second b0 b1 = false) (b2 b3 : Nat) (m : List Nat) :
    utf8ValidB (b0 :: b1 :: b2 :: b3 :: m) = false := by
  rw [utf8ValidB.eq_def]; simp [h, h1]

theorem vb_cons4_nc2 {b0 b1 b2 : Nat} (h : classify b0 = .lead4)
    (h1 : valid4Second b0 b1 = true) (h2 : isCont b2 = false) (b3 : Nat)
    (m : List Nat) : utf8ValidB (b0 :: b1 :: b2 :: b3 :: m) = false := by
  rw [utf8ValidB.eq_def]; simp [h, h1, h2]

theorem vb_cons4_nc3 {b0 b1 b2 b3 : Nat} (h : classify b0 = .lead4)
    (h1 : valid4Second b0 b1 = true) (h2 : isCont b2 = true)
    (h3 : isCont b3 = false) (m : List Nat) :
    utf8ValidB (b0 :: b1 :: b2 :: b3 :: m) = false := by
  rw [utf8ValidB.eq_def]; simp [h, h1, h2, h3]

/-- No nonzero-length prefix of a buffer whose first sequence is invalid or
incomplete is well-formed: the decoder's error offset is maximal among
valid prefixes. -/
theorem utf8Dec_err_maximal (l : List Nat) :
    ∀ p e, utf8Dec l = .error (p, e) → ∀ j, utf8ValidB (l.take j) = true → j ≤ p := by
  induction l using utf8Dec.induct
  case case1 =>
    intro p e hh
    rw [utf8Dec_nil] at hh
    exact absurd hh (by simp)
  case case2 b0 r h ih =>
    intro p e hh j hj
    rw [utf8Dec_cons_ascii h] at hh
    cases hr : utf8Dec r with
    | ok cps =>
      rw [hr] at hh
      exact absurd hh (by simp [utf8Cons])
    | error pe =>
      obtain ⟨p', e'⟩ := pe
      rw [hr] at hh
      simp only [utf8Cons] at hh
      injection hh with h'
      injection h' with hp he
      subst he
      rcases j with _ | j
      · omega
      · replace hj : utf8ValidB (b0 :: r.take j) = true := hj
        rw [utf8ValidB_cons_ascii h] at hj
        have := ih p' _ hr j hj
        omega
  case case5 b0 b1 rest1 h h1 ih =>
    intro p e hh j hj
    rw [utf8Dec_cons2 h h1] at hh
    cases hr : utf8Dec rest1 with
    | ok cps =>
      rw [hr] at hh
      exact absurd hh (by simp [utf8Cons])
    | error pe =>
      obtain ⟨p', e'⟩ := pe
      rw [hr] at hh
      simp only [utf8Cons] at hh
      injection hh with h'
      injection h' with hp he
      subst he
      rcases j with _ | j
      · omega
      rcases j with _ | j
      · replace hj : utf8ValidB [b0] = true := hj
        rw [vb_one2 h] at hj
        simp at hj
      · replace hj : utf8ValidB (b0 :: b1 :: rest1.take j) = true := hj
        rw [utf8ValidB_cons2 h h1] at hj
        have := ih p' _ hr j hj
        omega
  case case10 b0 b1 b2 rest2 h h1 h2 ih =>
    intro p e hh j hj
    rw [utf8Dec_cons3 h h1 h2] at hh
    cases hr : utf8Dec rest2 with
    | ok cps =>
      rw [hr] at hh
      exact absurd hh (by simp [utf8Cons])
    | error pe =>
      obtain ⟨p', e'⟩ := pe
      rw [hr] at hh
      simp only [utf8Cons] at hh
      injection hh with h'
      injection h' with hp he
      subst he
      rcases j with _ | j
      · omega
      rcases j with _ | j
      · replace hj : utf8ValidB [b0] = true := hj
        rw [vb_one3 h] at hj
        simp at hj
      rcases j with _ | j
      · replace hj : utf8ValidB [b0, b1] = true := hj
        rw [vb_two3 h b1] at hj
        simp at hj
      · replace hj : utf8ValidB (b0 :: b1 :: b2 :: rest2.take j) = true := hj
        rw [utf8ValidB_cons3 h h1 h2] at hj
        have := ih p' _ hr j hj
        omega
  case case19 b0 b1 b2 b3 rest3 h h1 h2 h3 ih =>
    intro p e hh j hj
    rw [utf8Dec_cons4 h h1 h2 h3] at hh
    cases hr : utf8Dec rest3 with
    | ok cps =>
      rw [hr] at hh
      exact absurd hh (by simp [utf8Cons])
    | error pe =>
      obtain ⟨p', e'⟩ := pe
      rw [hr] at hh
      simp only [utf8Cons] at hh
      injection hh with h'
      injection h' with hp he
      subst he
      rcases j with _ | j
      · omega
      rcases j with _ | j
      · replace hj : utf8ValidB [b0] = true := hj
        rw [vb_one4 h] at hj
        simp at hj
      rcases j with _ | j
      · replace hj : utf8ValidB [b0, b1] = true := hj
        rw [vb_two4 h b1] at hj
        simp at hj
      rcases j with _ | j
      · replace hj : utf8ValidB [b0, b1, b2] = true := hj
        rw [vb_three4 h b1 b2] at hj
        simp at hj
      · replace hj : utf8ValidB (b0 :: b1 :: b2 :: b3 :: rest3.take j) = true := hj
        rw [utf8ValidB_cons4 h h1 h2 h3] at hj
        have := ih p' _ hr j hj
        omega
  case case3 b0 rest h =>
    intro p e hh j hj
    rcases j with _ | j
    · exact Nat.zero_le p
    · replace hj : utf8ValidB (b0 :: rest.take j) = true := hj
      rw [vb_bad h] at hj
      simp at hj
  case case4 b0 h =>
    intro p e hh j hj
    rcases j with _ | j
    · exact Nat.zero_le p
    · replace hj : utf8ValidB (b0 :: List.take j []) = true := hj
      rw [List.take_nil, vb_one2 h] at hj
      simp at hj
  case case6 b0 b1 rest1 h h1 =>
    intro p e hh j hj
    have h1' : isCont b1 = false := by simpa using h1
    rcases j with _ | j
    · exact Nat.zero_le p
    rcases j with _ | j
    · replace hj : utf8ValidB [b0] = true := hj
      rw [vb_one2 h] at hj
      simp at hj
    · replace hj : utf8ValidB (b0 :: b1 :: rest1.take j) = true := hj
      rw [vb_cons2_nc h h1'] at hj
      simp at hj
  case case7 b0 h =>
    intro p e hh j hj
    rcases j with _ | j
    · exact Nat.zero_le p
    · replace hj : utf8ValidB (b0 :: List.take j []) = true := hj
      rw [List.take_nil, vb_one3 h] at hj
      simp at hj
  case case8 b0 b1 h h1 =>
    intro p e hh j hj
    rcases j with _ | j
    · exact Nat.zero_le p
    rcases j with _ | j
    · replace hj : utf8ValidB [b0] = true := hj
      rw [vb_one3 h] at hj
      simp at hj
    · replace hj : utf8ValidB (b0 :: b1 :: List.take j []) = true := hj
      rw [List.take_nil, vb_two3 h b1] at hj
      simp at hj
  case case9 b0 b1 h h1 =>
    intro p e hh j hj
    rcases j with _ | j
    · exact Nat.zero_le p
    rcases j with _ | j
    · replace hj : utf8ValidB [b0] = true := hj
      rw [vb_one3 h] at hj
      simp at hj
    · replace hj : utf8ValidB (b0 :: b1 :: List.take j []) = true := hj
      rw [List.take_nil, vb_two3 h b1] at hj
      simp at hj
  case case11 b0 b1 b2 rest2 h h1 h2 =>
    intro p e hh j hj
    have h2' : isCont b2 = false := by simpa using h2
    rcases j with _ | j
    · exact Nat.zero_le p
    rcases j with _ | j
    · replace hj : utf8ValidB [b0] = true := hj
      rw [vb_one3 h] at hj
      simp at hj
    rcases j with _ | j
    · replace hj : utf8ValidB [b0, b1] = true := hj
      rw [vb_two3 h b1] at hj
      simp at hj
    · replace hj : utf8ValidB (b0 :: b1 :: b2 :: rest2.take j) = true := hj
      rw [vb_cons3_nc h h1 h2'] at hj
      simp at hj
  case case12 b0 b1 b2 rest2 h h1 =>
    intro p e hh j hj
    have h1' : valid3Second b0 b1 = false := by simpa using h1
    rcases j with _ | j
    · exact Nat.zero_le p
    rcases j with _ | j
    · replace hj : utf8ValidB [b0] = true := hj
      rw [vb_one3 h] at hj
      simp at hj
    rcases j with _ | j
    · replace hj : utf8ValidB [b0, b1] = true := hj
      rw [vb_two3 h b1] at hj
      simp at hj
    · replace hj : utf8ValidB (b0 :: b1 :: b2 :: rest2.take j) = true := hj
      rw [vb_cons3_nv h h1' b2] at hj
      simp at hj
  case case13 b0 h =>
    intro p e hh j hj
    rcases j with _ | j
    · exact Nat.zero_le p
    · replace hj : utf8ValidB (b0 :: List.take j []) = true := hj
      rw [List.take_nil, vb_one4 h] at hj
      simp at hj
  case case14 b0 b1 h h1 =>
    intro p e hh j hj
    rcases j with _ | j
    · exact Nat.zero_le p
    rcases j with _ | j
    · replace hj : utf8ValidB [b0] = true := hj
      rw [vb_one4 h] at hj
      simp at hj
    · replace hj : utf8ValidB (b0 :: b1 :: List.take j []) = true := hj
      rw [List.take_nil, vb_two4 h b1] at hj
      simp at hj
  case case15 b0 b1 h h1 =>
    intro p e hh j hj
    rcases j with _ | j
    · exact Nat.zero_le p
    rcases j with _ | j
    · replace hj : utf8ValidB [b0] = true := hj
      rw [vb_one4 h] at hj
      simp at hj
    · replace hj : utf8ValidB (b0 :: b1 :: List.take j []) = true := hj
      rw [List.take_nil, vb_two4 h b1] at hj
      simp at hj
  case case16 b0 b1 b2 h h1 h2 =>
    intro p e hh j hj
    rcases j with _ | j
    · exact Nat.zero_le p
    rcases j with _ | j
    · replace hj : utf8ValidB [b0] = true := hj
      rw [vb_one4 h] at hj
      simp at hj
    rcases j with _ | j
    · replace hj : utf8ValidB [b0, b1] = true := hj
      rw [vb_two4 h b1] at hj
      simp at hj
    · replace hj : utf8ValidB (b0 :: b1 :: b2 :: List.take j []) = true := hj
      rw [List.take_nil, vb_three4 h b1 b2] at hj
      simp at hj
  case case17 b0 b1 b2 h h1 h2 =>
    intro p e hh j hj
    rcases j with _ | j
    · exact Nat.zero_le p
    rcases j with _ | j
    · replace hj : utf8ValidB [b0] = true := hj
      rw [vb_one4 h] at hj
      simp at hj
    rcases j with _ | j
    · replace hj : utf8ValidB [b0, b1] = true := hj
      rw [vb_two4 h b1] at hj
      simp at hj
    · replace hj : utf8ValidB (b0 :: b1 :: b2 :: List.take j []) = true := hj
      rw [List.take_nil, vb_three4 h b1 b2] at hj
      simp at hj
  case case18 b0 b1 b2 h h1 =>
    intro p e hh j hj
    rcases j with _ | j
    · exact Nat.zero_le p
    rcases j with _ | j
    · replace hj : utf8ValidB [b0] = true := hj
      rw [vb_one4 h] at hj
      simp at hj
    rcases j with _ | j
    · replace hj : utf8ValidB [b0, b1] = true := hj
      rw [vb_two4 h b1] at hj
      simp at hj
    · replace hj : utf8ValidB (b0 :: b1 :: b2 :: List.take j []) = true := hj
      rw [List.take_nil, vb_three4 h b1 b2] at hj
      simp at hj
  case case20 b0 b1 b2 b3 rest3 h h1 h2 h3 =>
    intro p e hh j hj
    have h3' : isCont b3 = false := by simpa using h3
    rcases j with _ | j
    · exact Nat.zero_le p
    rcases j with _ | j
    · replace hj : utf8ValidB [b0] = true := hj
      rw [vb_one4 h] at hj
      simp at hj
    rcases j with _ | j
    · replace hj : utf8ValidB [b0, b1] = true := hj
      rw [vb_two4 h b1] at hj
      simp at hj
    rcases j with _ | j
    · replace hj : utf8ValidB [b0, b1, b2] = true := hj
      rw [vb_three4 h b1 b2] at hj
      simp at hj
    · replace hj : utf8ValidB (b0 :: b1 :: b2 :: b3 :: rest3.take j) = true := hj
      rw [vb_cons4_nc3 h h1 h2 h3'] at hj
      simp at hj
  case case21 b0 b1 b2 b3 rest3 h h1 h2 =>
    intro p e hh j hj
    have h2' : isCont b2 = false := by simpa using h2
    rcases j with _ | j
    · exact Nat.zero_le p
    rcases j with _ | j
    · replace hj : utf8ValidB [b0] = true := hj
      rw [vb_one4 h] at hj
      simp at hj
    rcases j with _ | j
    · replace hj : utf8ValidB [b0, b1] = true := hj
      rw [vb_two4 h b1] at hj
      simp at hj
    rcases j with _ | j
    · replace hj : utf8ValidB [b0, b1, b2] = true := hj
      rw [vb_three4 h b1 b2] at hj
      simp at hj
    · replace hj : utf8ValidB (b0 :: b1 :: b2 :: b3 :: rest3.take j) = true := hj
      rw [vb_cons4_nc2 h h1 h2' b3] at hj
      simp at hj
  case case22 b0 b1 b2 b3 rest3 h h1 =>
    intro p e hh j hj
    have h1' : valid4Second b0 b1 = false := by simpa using h1
    rcases j with _ | j
    · exact Nat.zero_le p
    rcases j with _ | j
    · replace hj : utf8ValidB [b0] = true := hj
      rw [vb_one4 h] at hj
      simp at hj
    rcases j with _ | j
    · replace hj : utf8ValidB [b0, b1] = true := hj
      rw [vb_two4 h b1] at hj
      simp at hj
    rcases j with _ | j
    · replace hj : utf8ValidB [b0, b1, b2] = true := hj
      rw [vb_three4 h b1 b2] at hj
      simp at hj
    · replace hj : utf8ValidB (b0 :: b1 :: b2 :: b3 :: rest3.take j) = true := hj
      rw [vb_cons4_nv h h1' b2 b3] at hj
      simp at hj

/-- On success of the strict decoder, the lossy decoder agrees exactly. -/
theorem utf8Lossy_of_ok {l cps : List Nat} (h : utf8Dec l = .ok cps) :
    utf8Lossy l = cps :=
  (lossySpec_all l).1 cps h

/-- When the strict decoder reports an error at offset `p`, `p` is exactly
the spec-side first-invalid-byte offset: the length of the longest
well-formed prefix. -/
theorem validUpToSpec_err {l : List Nat} {p : Nat} {e : Option Nat}
    (h : utf8Dec l = .error (p, e)) : validUpToSpec l = p := by
  unfold validUpToSpec
  rw [Nat.findGreatest_eq_iff]
  refine ⟨Nat.le_of_lt (utf8Dec_err_lt_length l p e h), ?_, ?_⟩
  · intro _
    cases e with
    | some n =>
      obtain ⟨cps, htake, _⟩ := (lossySpec_all l).2.1 p n h
      rw [utf8ValidB_eq_isOk, htake]
      rfl
    | none =>
      obtain ⟨cps, htake, _⟩ := (lossySpec_all l).2.2 p h
      rw [utf8ValidB_eq_isOk, htake]
      rfl
  · intro n hpn _ hP
    have := utf8Dec_err_maximal l p e h n hP
    omega

/-- The byte view of a wrapped text object is its stored canonical bytes. -/
theorem PyString_as_bytes_eq (o : PyObj) : (PyString.mk o).as_bytes = o.data := by
  simp [PyString.as_bytes, PyString.as_bytes_st, PyUnicode_AsUTF8AndSize,
    List.take_length]

/-- The byte view of a wrapped byte-buffer object is its stored bytes. -/
theorem PyBytes_as_bytes_eq (o : PyObj) : (PyBytes.mk o).as_bytes = o.data := by
  simp [PyBytes.as_bytes, PyBytes.as_bytes_st, PyBytes_AsString, PyBytes_Size,
    List.take_length]

example : utf8Dec [0x61, 0x62] = .ok [0x61, 0x62] := by
  simp [utf8Dec.eq_def, classify, utf8Cons]
example : utf8Dec [0x61, 0xC3, 0xA9] = .ok [0x61, 0xE9] := by
  simp [utf8Dec.eq_def, classify, isCont, utf8Cons]
example : utf8Dec [0x61, 0xFF, 0x62] = .error (1, some 1) := by
  simp [utf8Dec.eq_def, classify, utf8Cons]
example : utf8Dec [0x61, 0xE2, 0x82] = .error (1, none) := by
  simp [utf8Dec.eq_def, classify, isCont, valid3Second, utf8Cons]
example : utf8Dec [0xED, 0xA0, 0x80] = .error (0, some 1) := by
  simp [utf8Dec.eq_def, classify, isCont, valid3Second, utf8Cons]
example : utf8Lossy [0x61, 0xFF, 0x62] = [0x61, 0xFFFD, 0x62] := by
  simp [utf8Lossy.eq_def, classify]
example : utf8Lossy [0x61, 0xE2, 0x82] = [0x61, 0xFFFD] := by
  simp [utf8Lossy.eq_def, classify, isCont, valid3Second]
example : strToUtf8 "aé" = [0x61, 0xC3, 0xA9] := by decide
example : strToUtf8 "🐈" = [0xF0, 0x9F, 0x90, 0x88] := by decide
example : utf8ValidB [0x61, 0xFF, 0x62] = false := by
  simp [utf8ValidB.eq_def, classify]

/-! ## Claim theorems -/

/-- C1: for every valid host text value `s` (including strings with code
points outside the Basic Multilingual Plane), when the foreign allocation
succeeds, `PyString::new(py, s)` followed by `to_string` returns `Ok(s)`:
the round-trip through the foreign runtime is the identity on valid text. -/
theorem C1_new_to_string_round_trip (rt : Runtime) (py : Python) (s : String)
    (h : rt.allocOk = true) :
    ∃ ps : PyString, PyString.new rt py s = .ok ps ∧ ps.to_string = .ok s := by
  refine ⟨⟨⟨.unicode, strToUtf8 s⟩⟩, ?_, ?_⟩
  · simp [PyString.new, PyUnicode_FromStringAndSize, h, from_owned_ptr_or_panic]
  · have hb : (PyString.mk ⟨.unicode, strToUtf8 s⟩).as_bytes = strToUtf8 s :=
      PyString_as_bytes_eq _
    simp only [PyString.to_string, hb, from_utf8, utf8Dec_strToUtf8 s]
    rw [strFromCps_map_toNat]

/-- Witness for C1 at the concrete non-BMP string `"a🐈哈"`. -/
theorem C1_new_to_string_round_trip_witness :
    (Runtime.mk true (fun _ _ _ => none) 0).allocOk = true ∧
    ∃ ps : PyString,
      PyString.new (Runtime.mk true (fun _ _ _ => none) 0) ⟨⟩ "a🐈哈" = .ok ps ∧
      ps.to_string = .ok "a🐈哈" :=
  ⟨rfl, C1_new_to_string_round_trip (Runtime.mk true (fun _ _ _ => none) 0) ⟨⟩ "a🐈哈" rfl⟩

/-- C2: for every `PyString` whose byte view is not well-formed UTF-8 and
whose first invalid byte (the end of the longest well-formed prefix, in the
spec-side sense) is at offset `k`, `to_string` returns a
`UnicodeDecodeError`-shaped error referencing offset `k`; it never
succeeds on such input. -/
theorem C2_to_string_decode_error_offset (ps : PyString) (k : Nat)
    (hbad : utf8ValidB ps.as_bytes = false)
    (hk : validUpToSpec ps.as_bytes = k) :
    ∃ e, ps.to_string = .error (PyErr.unicodeDecodeError k e) := by
  obtain ⟨p, e, hx⟩ : ∃ p e, utf8Dec ps.as_bytes = .error (p, e) := by
    cases hx : utf8Dec ps.as_bytes with
    | ok cps =>
      rw [utf8ValidB_eq_isOk, hx] at hbad
      exact absurd hbad (by simp [Except.isOk, Except.toBool])
    | error pe =>
      obtain ⟨p, e⟩ := pe
      exact ⟨p, e, rfl⟩
  have hvp : validUpToSpec ps.as_bytes = p := validUpToSpec_err hx
  have hpk : p = k := by omega
  subst hpk
  refine ⟨e, ?_⟩
  simp only [PyString.to_string, from_utf8, hx, UnicodeDecodeError_new_utf8]

/-- Witness for C2: a text object whose bytes are `61 FF 62` (first invalid
byte at offset 1) yields a decode error referencing offset 1. -/
theorem C2_to_string_decode_error_offset_witness :
    utf8ValidB (PyString.mk ⟨.unicode, [0x61, 0xFF, 0x62]⟩).as_bytes = false ∧
    validUpToSpec (PyString.mk ⟨.unicode, [0x61, 0xFF, 0x62]⟩).as_bytes = 1 ∧
    ∃ e, (PyString.mk ⟨.unicode, [0x61, 0xFF, 0x62]⟩).to_string =
      .error (PyErr.unicodeDecodeError 1 e) := by
  have hb : (PyString.mk ⟨.unicode, [0x61, 0xFF, 0x62]⟩).as_bytes =
      [0x61, 0xFF, 0x62] := PyString_as_bytes_eq _
  have h1 : utf8ValidB [0x61, 0xFF, 0x62] = false := by
    rw [utf8ValidB.eq_def]
    simp [classify]
    rw [utf8ValidB.eq_def]
    simp [classify]
  have h2 : validUpToSpec [0x61, 0xFF, 0x62] = 1 := by
    have hx : utf8Dec [0x61, 0xFF, 0x62] = .error (1, some 1) := by
      rw [utf8Dec.eq_def]
      simp [classify]
      rw [utf8Dec.eq_def]
      simp [classify, utf8Cons]
    exact validUpToSpec_err hx
  exact ⟨by rw [hb]; exact h1, by rw [hb]; exact h2,
    C2_to_string_decode_error_offset _ 1 (by rw [hb]; exact h1) (by rw [hb]; exact h2)⟩

/-- C3: for every byte sequence `b`, including sequences with embedded zero
bytes, `PyBytes::new(py, b)` (when allocation succeeds) followed by
`as_bytes` returns exactly `b`: the byte view is length-delimited, not
terminator-delimited. -/
theorem C3_bytes_round_trip (rt : Runtime) (py : Python) (b : List Nat)
    (h : rt.allocOk = true) :
    ∃ pb : PyBytes, PyBytes.new rt py b = .ok pb ∧ pb.as_bytes = b := by
  refine ⟨⟨⟨.bytes, b⟩⟩, ?_, ?_⟩
  · simp [PyBytes.new, PyBytes_FromStringAndSize, h, from_owned_ptr_or_panic]
  · exact PyBytes_as_bytes_eq _

/-- Witness for C3 at a buffer with embedded and trailing zero bytes. -/
theorem C3_bytes_round_trip_witness :
    (Runtime.mk true (fun _ _ _ => none) 0).allocOk = true ∧
    ∃ pb : PyBytes,
      PyBytes.new (Runtime.mk true (fun _ _ _ => none) 0) ⟨⟩ [0, 0x61, 0, 0xFF, 0] = .ok pb ∧
      pb.as_bytes = [0, 0x61, 0, 0xFF, 0] :=
  ⟨rfl, C3_bytes_round_trip (Runtime.mk true (fun _ _ _ => none) 0) ⟨⟩ _ rfl⟩

/-- C4: the checked downcast (`PyTryFrom::try_from` as generated by
`pyobject_native_type!`) succeeds, reinterpreting the same pointer at zero
cost, exactly when the foreign type check accepts the object, and returns
the type-mismatch error otherwise; a returned wrapper always wraps an
object of the right native type. -/
theorem C4_try_from_type_checked (o : PyObj) :
    ((PyUnicode_Check o = true → PyString.try_from o = .ok ⟨o⟩) ∧
     (PyUnicode_Check o = false → PyString.try_from o = .error ()) ∧
     (∀ w, PyString.try_from o = .ok w → w.obj = o ∧ w.obj.tag = .unicode)) ∧
    ((PyBytes_Check o = true → PyBytes.try_from o = .ok ⟨o⟩) ∧
     (PyBytes_Check o = false → PyBytes.try_from o = .error ()) ∧
     (∀ w, PyBytes.try_from o = .ok w → w.obj = o ∧ w.obj.tag = .bytes)) := by
  refine ⟨⟨?_, ?_, ?_⟩, ⟨?_, ?_, ?_⟩⟩
  · intro h
    simp [PyString.try_from, h]
  · intro h
    simp [PyString.try_from, h]
  · intro w hw
    unfold PyString.try_from at hw
    by_cases h : PyUnicode_Check o = true
    · rw [if_pos h] at hw
      injection hw with hw'
      subst hw'
      exact ⟨rfl, by simpa [PyUnicode_Check] using h⟩
    · rw [if_neg h] at hw
      exact absurd hw (by simp)
  · intro h
    simp [PyBytes.try_from, h]
  · intro h
    simp [PyBytes.try_from, h]
  · intro w hw
    unfold PyBytes.try_from at hw
    by_cases h : PyBytes_Check o = true
    · rw [if_pos h] at hw
      injection hw with hw'
      subst hw'
      exact ⟨rfl, by simpa [PyBytes_Check] using h⟩
    · rw [if_neg h] at hw
      exact absurd hw (by simp)

/-- Witness for C4: the downcasts at a text object, a byte-buffer object
and an object of a different native type. -/
theorem C4_try_from_type_checked_witness :
    PyString.try_from ⟨.unicode, [0x61]⟩ = .ok ⟨⟨.unicode, [0x61]⟩⟩ ∧
    PyString.try_from ⟨.other, []⟩ = .error () ∧
    PyBytes.try_from ⟨.bytes, [0]⟩ = .ok ⟨⟨.bytes, [0]⟩⟩ ∧
    PyBytes.try_from ⟨.unicode, [0x61]⟩ = .error () :=
  ⟨(C4_try_from_type_checked ⟨.unicode, [0x61]⟩).1.1 rfl,
   (C4_try_from_type_checked ⟨.other, []⟩).1.2.1 rfl,
   (C4_try_from_type_checked ⟨.bytes, [0]⟩).2.1 rfl,
   (C4_try_from_type_checked ⟨.unicode, [0x61]⟩).2.2.1 rfl⟩

/-- C5: `to_string_lossy` never returns an error (it is total by type); it
performs the same validation as `to_string` (it branches on the same
decoder), and each invalid sequence is replaced by exactly one
`U+FFFD` while all valid units are preserved unchanged: on a decode error
at offset `p` with invalid-subpart length `n`, the result is the strict
decoding of the first `p` bytes, one replacement marker, and the lossy
conversion of the bytes after the subpart; on a trailing incomplete
sequence, the strict decoding of the valid part plus one final marker. -/
theorem C5_to_string_lossy_replacement (ps : PyString) :
    (∀ cps, utf8Dec ps.as_bytes = .ok cps →
      ps.to_string_lossy = strFromCps cps) ∧
    (∀ p n, utf8Dec ps.as_bytes = .error (p, some n) →
      ∃ cps, utf8Dec (ps.as_bytes.take p) = .ok cps ∧
        ps.to_string_lossy =
          strFromCps (cps ++ 0xFFFD :: utf8Lossy (ps.as_bytes.drop (p + n)))) ∧
    (∀ p, utf8Dec ps.as_bytes = .error (p, none) →
      ∃ cps, utf8Dec (ps.as_bytes.take p) = .ok cps ∧
        ps.to_string_lossy = strFromCps (cps ++ [0xFFFD])) := by
  obtain ⟨ha, hb, hc⟩ := lossySpec_all ps.as_bytes
  refine ⟨?_, ?_, ?_⟩
  · intro cps h
    rw [PyString.to_string_lossy, from_utf8_lossy, ha cps h]
  · intro p n h
    obtain ⟨cps, h1, h2⟩ := hb p n h
    exact ⟨cps, h1, by rw [PyString.to_string_lossy, from_utf8_lossy, h2]⟩
  · intro p h
    obtain ⟨cps, h1, h2⟩ := hc p h
    exact ⟨cps, h1, by rw [PyString.to_string_lossy, from_utf8_lossy, h2]⟩

/-- Witness for C5 at the bytes `61 FF 62`: the lossy conversion decodes
`a`, substitutes one marker for the invalid byte, and decodes `b`. -/
theorem C5_to_string_lossy_replacement_witness :
    utf8Dec (PyString.mk ⟨.unicode, [0x61, 0xFF, 0x62]⟩).as_bytes =
      .error (1, some 1) ∧
    (∃ cps,
      utf8Dec ((PyString.mk ⟨.unicode, [0x61, 0xFF, 0x62]⟩).as_bytes.take 1) =
        .ok cps ∧
      (PyString.mk ⟨.unicode, [0x61, 0xFF, 0x62]⟩).to_string_lossy =
        strFromCps (cps ++ 0xFFFD ::
          utf8Lossy ((PyString.mk ⟨.unicode, [0x61, 0xFF, 0x62]⟩).as_bytes.drop (1 + 1)))) := by
  have hb : (PyString.mk ⟨.unicode, [0x61, 0xFF, 0x62]⟩).as_bytes =
      [0x61, 0xFF, 0x62] := PyString_as_bytes_eq _
  have hx : utf8Dec [0x61, 0xFF, 0x62] = .error (1, some 1) := by
    rw [utf8Dec.eq_def]
    simp [classify]
    rw [utf8Dec.eq_def]
    simp [classify, utf8Cons]
  exact ⟨by rw [hb]; exact hx,
    (C5_to_string_lossy_replacement _).2.1 1 1 (by rw [hb]; exact hx)⟩

/-- C6: `PyString::new` and `PyBytes::new` fail only on allocation
exhaustion of the foreign runtime, and that failure is the fatal outcome
(`FatalOr.fatal`, a panic that aborts unconditionally — the return type has
no recoverable error value); whenever the foreign allocation succeeds they
return the owning reference without panicking. -/
theorem C6_new_fatal_only_on_alloc (rt : Runtime) (py : Python) (s : String)
    (b : List Nat) :
    (rt.allocOk = true →
      PyString.new rt py s = .ok ⟨⟨.unicode, strToUtf8 s⟩⟩ ∧
      PyBytes.new rt py b = .ok ⟨⟨.bytes, b⟩⟩) ∧
    (PyString.new rt py s = .fatal ↔ rt.allocOk = false) ∧
    (PyBytes.new rt py b = .fatal ↔ rt.allocOk = false) := by
  refine ⟨?_, ?_, ?_⟩
  · intro h
    constructor <;>
      simp [PyString.new, PyBytes.new, PyUnicode_FromStringAndSize,
        PyBytes_FromStringAndSize, h, from_owned_ptr_or_panic]
  · cases hrt : rt.allocOk <;>
      simp [PyString.new, PyUnicode_FromStringAndSize, hrt, from_owned_ptr_or_panic]
  · cases hrt : rt.allocOk <;>
      simp [PyBytes.new, PyBytes_FromStringAndSize, hrt, from_owned_ptr_or_panic]

/-- Witness for C6 under a succeeding and an exhausted foreign heap. -/
theorem C6_new_fatal_only_on_alloc_witness :
    PyString.new (Runtime.mk true (fun _ _ _ => none) 0) ⟨⟩ "a" =
      .ok ⟨⟨.unicode, [0x61]⟩⟩ ∧
    PyString.new (Runtime.mk false (fun _ _ _ => none) 0) ⟨⟩ "a" = .fatal ∧
    PyBytes.new (Runtime.mk false (fun _ _ _ => none) 0) ⟨⟩ [0] = .fatal :=
  ⟨((C6_new_fatal_only_on_alloc (Runtime.mk true (fun _ _ _ => none) 0) ⟨⟩ "a" [0]).1 rfl).1,
   (C6_new_fatal_only_on_alloc (Runtime.mk false (fun _ _ _ => none) 0) ⟨⟩ "a" [0]).2.1.mpr rfl,
   (C6_new_fatal_only_on_alloc (Runtime.mk false (fun _ _ _ => none) 0) ⟨⟩ "a" [0]).2.2.mpr rfl⟩

/-- C8: whenever `to_string` succeeds with text `s`, `to_string_lossy`
returns the same `s`: on valid byte views the lossy and strict conversions
agree exactly. -/
theorem C8_lossy_agrees_with_strict (ps : PyString) (s : String)
    (h : ps.to_string = .ok s) : ps.to_string_lossy = s := by
  cases hy : utf8Dec ps.as_bytes with
  | ok cps =>
    have hfu : from_utf8 ps.as_bytes = .ok (strFromCps cps) := by
      simp only [from_utf8, hy]
    simp only [PyString.to_string, hfu] at h
    injection h with h'
    rw [PyString.to_string_lossy, from_utf8_lossy, utf8Lossy_of_ok hy, h']
  | error pe =>
    obtain ⟨p, e⟩ := pe
    have hfu : from_utf8 ps.as_bytes = .error ⟨p, e⟩ := by
      simp only [from_utf8, hy]
    simp only [PyString.to_string, hfu] at h
    exact absurd h (by simp)

/-- Witness for C8 at a valid multi-byte byte view. -/
theorem C8_lossy_agrees_with_strict_witness :
    (PyString.mk ⟨.unicode, [0x61, 0xC3, 0xA9]⟩).to_string = .ok "aé" ∧
    (PyString.mk ⟨.unicode, [0x61, 0xC3, 0xA9]⟩).to_string_lossy = "aé" := by
  have hb : (PyString.mk ⟨.unicode, [0x61, 0xC3, 0xA9]⟩).as_bytes =
      [0x61, 0xC3, 0xA9] := PyString_as_bytes_eq _
  have hdec : utf8Dec [0x61, 0xC3, 0xA9] = .ok [0x61, 0xE9] := by
    rw [utf8Dec_cons_ascii (by decide) [0xC3, 0xA9],
      utf8Dec_cons2 (by decide) (by decide) [], utf8Dec_nil]
    decide
  have hts : (PyString.mk ⟨.unicode, [0x61, 0xC3, 0xA9]⟩).to_string = .ok "aé" := by
    have hfu : from_utf8 (PyString.mk ⟨.unicode, [0x61, 0xC3, 0xA9]⟩).as_bytes =
        .ok "aé" := by
      rw [hb]
      simp only [from_utf8, hdec]
      decide
    simp only [PyString.to_string, hfu]
  exact ⟨hts, C8_lossy_agrees_with_strict _ "aé" hts⟩

/-- C9: `PyString::new` is length-delimited: for every host string `s`,
including strings with embedded NUL characters, the created text object's
byte view equals the UTF-8 bytes of `s` exactly (no NUL termination). -/
theorem C9_new_byte_view_exact (rt : Runtime) (py : Python) (s : String)
    (h : rt.allocOk = true) :
    ∃ ps : PyString, PyString.new rt py s = .ok ps ∧ ps.as_bytes = strToUtf8 s := by
  refine ⟨⟨⟨.unicode, strToUtf8 s⟩⟩, ?_, PyString_as_bytes_eq _⟩
  simp [PyString.new, PyUnicode_FromStringAndSize, h, from_owned_ptr_or_panic]

/-- Witness for C9 at a string with an embedded NUL character: the zero
byte is preserved in the middle of the byte view. -/
theorem C9_new_byte_view_exact_witness :
    strToUtf8 "a\x00b" = [0x61, 0, 0x62] ∧
    ∃ ps : PyString,
      PyString.new (Runtime.mk true (fun _ _ _ => none) 0) ⟨⟩ "a\x00b" = .ok ps ∧
      ps.as_bytes = strToUtf8 "a\x00b" :=
  ⟨by decide, C9_new_byte_view_exact (Runtime.mk true (fun _ _ _ => none) 0) ⟨⟩ "a\x00b" rfl⟩

/-- C10: `as_bytes` is a read-only, deterministic observation: the call
leaves the object exactly as it was, two successive calls return equal
byte slices, and a call does not change the result of any subsequent
`to_string`/`to_string_lossy`/`as_bytes` on the object — for both
`PyString` and `PyBytes`. -/
theorem C10_as_bytes_read_only (ps : PyString) (pb : PyBytes) :
    ps.as_bytes_st.2 = ps ∧
    ps.as_bytes_st.1 = ps.as_bytes_st.2.as_bytes_st.1 ∧
    ps.as_bytes_st.2.to_string = ps.to_string ∧
    ps.as_bytes_st.2.to_string_lossy = ps.to_string_lossy ∧
    pb.as_bytes_st.2 = pb ∧
    pb.as_bytes_st.1 = pb.as_bytes_st.2.as_bytes_st.1 :=
  ⟨rfl, rfl, rfl, rfl, rfl, rfl⟩

/-- General error propagation of `from_object`: whenever the foreign
encoding-conversion primitive returns no object, the captured pending
exception is returned as `Err`. -/
theorem from_object_err_propagation (rt : Runtime) (src : PyObj)
    (encoding errors : String) (ej rj : List Nat)
    (hnone : rt.fromEncoded src (cStrRead (strToUtf8 encoding) ej)
      (cStrRead (strToUtf8 errors) rj) = none) :
    PyString.from_object rt src encoding errors ej rj =
      .error (PyErr.foreign rt.pendingExc) := by
  simp only [PyString.from_object, hnone, PyErr_fetch]

/-- C7 (bug evidence): `from_object` passes `encoding.as_ptr()` /
`errors.as_ptr()` — pointers to buffers that are not NUL-terminated — to a
primitive that reads NUL-terminated C strings. Against a runtime that
echoes back the encoding name it received, calling
`from_object(src, "utf-8", "strict")` when the byte after the encoding
buffer is `0x41` delivers the name `"utf-8A"`, not `"utf-8"`: the name is
not passed through unchanged. The error path (third conjunct) does hold:
a failed conversion surfaces as `Err` with the captured exception. -/
theorem C7_from_object_nul_termination_bug :
    PyString.from_object
        (Runtime.mk true (fun _ enc _ => some ⟨.unicode, enc⟩) 0)
        ⟨.other, []⟩ "utf-8" "strict" [0x41, 0] [0] =
      .ok ⟨⟨.unicode, strToUtf8 "utf-8" ++ [0x41]⟩⟩ ∧
    strToUtf8 "utf-8" ++ [0x41] ≠ strToUtf8 "utf-8" ∧
    PyString.from_object (Runtime.mk true (fun _ _ _ => none) 7)
        ⟨.other, []⟩ "utf-8" "strict" [0] [0] =
      .error (PyErr.foreign 7) := by
  refine ⟨by decide, by decide, ?_⟩
  exact from_object_err_propagation (Runtime.mk true (fun _ _ _ => none) 7)
    ⟨.other, []⟩ "utf-8" "strict" [0] [0] rfl
